import Mathlib

/-!
Shallow embedding of the sky-lynx insight engine.

The definitions below are translated directly from the Python sources:
 - src/sky_lynx/claude_client.py   (parse_recommendations)
 - src/sky_lynx/insights_parser.py (aggregate_weekly_metrics,
   calculate_percentage_change, calculate_satisfaction_trend)
 - src/sky_lynx/outcome_reader.py  (build_outcome_digest)

Python strings are modelled as lists of characters (lines) and Lean strings,
Python dict/Counter objects as association lists or count functions, and
Python floats as exact rationals.
-/

/-- The character list of a Lean string literal; used to write Python string
constants appearing in the source. -/
def lit (s : String) : List Char := s.data

/-- Python str.lower for one character, restricted to ASCII as in the data
this system processes. -/
def pyLowerChar (c : Char) : Char :=
  if 'A' ≤ c ∧ c ≤ 'Z' then Char.ofNat (c.toNat + 32) else c

/-- Python line.lower(). -/
def lowerL (l : List Char) : List Char := l.map pyLowerChar

/-- Python s.startswith(pat), on character lists. -/
def isPrefixOfB : List Char → List Char → Bool
  | [], _ => true
  | _ :: _, [] => false
  | a :: as, b :: bs => a = b && isPrefixOfB as bs

/-- Python (pat in s): pat occurs contiguously in s. -/
def isInfixOfB (pat : List Char) : List Char → Bool
  | [] => pat.isEmpty
  | b :: bs => isPrefixOfB pat (b :: bs) || isInfixOfB pat bs

/-- Membership in the character set of Python lstrip("0123456789."). -/
def isDigitDotChar (c : Char) : Bool :=
  c = '0' || c = '1' || c = '2' || c = '3' || c = '4' || c = '5' ||
    c = '6' || c = '7' || c = '8' || c = '9' || c = '.'

/-- The asterisk character, the set stripped by Python strip("*"). -/
def isStarChar (c : Char) : Bool := c = '*'

/-- Membership in the character set of Python lstrip("-*"). -/
def isDashStarChar (c : Char) : Bool := c = '-' || c = '*'

/-- ASCII whitespace stripped by Python str.strip() with no argument. -/
def pyIsSpace (c : Char) : Bool :=
  c = ' ' || c = '\t' || c = '\n' || c = '\r' ||
    c = Char.ofNat 11 || c = Char.ofNat 12

/-- Remove the longest suffix whose characters satisfy p. -/
def dropWhileRight (p : Char → Bool) (l : List Char) : List Char :=
  (l.reverse.dropWhile p).reverse

/-- Python s.strip(chars): drop characters of the class from both ends. -/
def stripChars (p : Char → Bool) (l : List Char) : List Char :=
  dropWhileRight p (l.dropWhile p)

/-- Python s.strip() with no argument. -/
def pyStrip (l : List Char) : List Char := stripChars pyIsSpace l

/-- Python text.split(newline): the list of lines, keeping empty pieces. -/
def splitLines : List Char → List (List Char)
  | [] => [[]]
  | c :: rest =>
    if c = '\n' then [] :: splitLines rest
    else
      match splitLines rest with
      | [] => [[c]]
      | l :: ls => (c :: l) :: ls

/-- The Recommendation record of claude_client.py. -/
structure Recommendation where
  title : List Char
  priority : List Char
  evidence : List Char
  suggested_change : List Char
  impact : List Char
  reversibility : List Char
deriving DecidableEq, Repr

/-- The mutable loop state of parse_recommendations: the output list, the
record under construction, and the in_recommendations flag. -/
structure ParseState where
  recs : List Recommendation
  current : Option Recommendation
  inRecs : Bool
deriving DecidableEq, Repr

/-- Condition of the section-start branch of parse_recommendations: the
lowercased line contains "recommendation" and the raw line starts with a
heading or emphasis marker.  In the source this test is not conditioned on
the current section state. -/
def enterCond (line : List Char) : Bool :=
  isInfixOfB (lit "recommendation") (lowerL line) &&
    (isPrefixOfB (lit "#") line || isPrefixOfB (lit "**") line)

/-- Condition of the section-end branch: the lowercased line contains the
text "working well". -/
def exitCond (line : List Char) : Bool :=
  isInfixOfB (lit "working well") (lowerL line)

/-- True when the stripped line starts with one of the numbered-list
markers accepted by the source. -/
def startsNumbered (s : List Char) : Bool :=
  isPrefixOfB (lit "1.") s || isPrefixOfB (lit "2.") s || isPrefixOfB (lit "3.") s ||
    isPrefixOfB (lit "4.") s || isPrefixOfB (lit "5.") s

/-- Condition of the new-recommendation branch: numbered or emphasised line
whose lowercased form mentions consider, add or update. -/
def startCond (line : List Char) : Bool :=
  (startsNumbered (pyStrip line) || isPrefixOfB (lit "**") (pyStrip line)) &&
    (isInfixOfB (lit "consider") (lowerL line) ||
      isInfixOfB (lit "add") (lowerL line) ||
      isInfixOfB (lit "update") (lowerL line))

/-- The title computed by the new-recommendation branch:
line.strip().lstrip("0123456789.").strip() then .strip("*").strip(). -/
def titleOf (line : List Char) : List Char :=
  pyStrip (stripChars isStarChar (pyStrip ((pyStrip line).dropWhile isDigitDotChar)))

/-- line.strip().lstrip("-*").strip(), used for evidence and
suggested-change values. -/
def bulletStrip (line : List Char) : List Char :=
  pyStrip ((pyStrip line).dropWhile isDashStarChar)

/-- The record created by the new-recommendation branch. -/
def newRecommendation (line : List Char) : Recommendation :=
  { title := titleOf line, priority := lit "medium", evidence := [],
    suggested_change := [], impact := [], reversibility := lit "high" }

/-- The attribute-parsing branch of parse_recommendations: four independent
checks, each overwriting its field. -/
def enrich (r : Recommendation) (line : List Char) : Recommendation :=
  let low := lowerL line
  let r1 :=
    if isInfixOfB (lit "priority") low ||
        (isInfixOfB (lit "high") low && !isInfixOfB (lit "impact") low) then
      if isInfixOfB (lit "high") low then { r with priority := lit "high" }
      else if isInfixOfB (lit "low") low then { r with priority := lit "low" }
      else r
    else r
  let r2 :=
    if isInfixOfB (lit "evidence") low || isInfixOfB (lit "session") low then
      { r1 with evidence := bulletStrip line }
    else r1
  let r3 :=
    if isInfixOfB (lit "suggest") low || isInfixOfB (lit "change") low then
      { r2 with suggested_change := bulletStrip line }
    else r2
  if isInfixOfB (lit "reversib") low then
    if isInfixOfB (lit "high") low then { r3 with reversibility := lit "high" }
    else if isInfixOfB (lit "low") low then { r3 with reversibility := lit "low" }
    else { r3 with reversibility := lit "medium" }
  else r3

/-- Append the record under construction to the output when it exists and
its title is non-empty; used by the new-recommendation branch and at end of
input. -/
def finalizeIfTitled (recs : List Recommendation) (cur : Option Recommendation) :
    List Recommendation :=
  match cur with
  | some r => if r.title.isEmpty then recs else recs ++ [r]
  | none => recs

/-- One iteration of the line loop of parse_recommendations, with the
branches in source order. -/
def processLine (st : ParseState) (line : List Char) : ParseState :=
  if enterCond line then
    { st with inRecs := true }
  else if st.inRecs && exitCond line then
    { recs := st.recs ++ st.current.toList, current := none, inRecs := false }
  else if !st.inRecs then st
  else if startCond line then
    { recs := finalizeIfTitled st.recs st.current,
      current := some (newRecommendation line), inRecs := st.inRecs }
  else
    match st.current with
    | some r => { st with current := some (enrich r line) }
    | none => st

/-- The loop state before the first line. -/
def initState : ParseState := { recs := [], current := none, inRecs := false }

/-- After the last line the source appends the record under construction
when titled. -/
def finalizeEnd (st : ParseState) : List Recommendation :=
  finalizeIfTitled st.recs st.current

/-- parse_recommendations on an already split line list. -/
def parseRecLines (lines : List (List Char)) : List Recommendation :=
  finalizeEnd (lines.foldl processLine initState)

/-- parse_recommendations of claude_client.py. -/
def parse_recommendations (response_text : String) : List Recommendation :=
  parseRecLines (splitLines response_text.data)

/-- The synthetic clean input of the extractor idempotence property. -/
def cleanInputText : String :=
  "## Recommendations\n1. Consider adding a test checklist\n- Evidence: 3 sessions\n## What's Working Well"

/-- Claim C5: on the four-line synthetic input the extractor returns exactly
one recommendation with title "Consider adding a test checklist", evidence
containing "3 sessions", priority "medium" and reversibility "high". -/
theorem parse_recommendations_clean_input :
    (parse_recommendations cleanInputText).length = 1 ∧
    (parse_recommendations cleanInputText).map Recommendation.title =
      [lit "Consider adding a test checklist"] ∧
    (parse_recommendations cleanInputText).all
      (fun r => isInfixOfB (lit "3 sessions") r.evidence) = true ∧
    (parse_recommendations cleanInputText).map Recommendation.priority = [lit "medium"] ∧
    (parse_recommendations cleanInputText).map Recommendation.reversibility =
      [lit "high"] := by
  decide

/-- A line list on which the section-start condition never fires leaves the
initial loop state unchanged. -/
theorem foldl_processLine_no_enter (lines : List (List Char))
    (h : ∀ l ∈ lines, enterCond l = false) :
    lines.foldl processLine initState = initState := by
  suffices h2 : ∀ (ls : List (List Char)), (∀ l ∈ ls, enterCond l = false) →
      ls.foldl processLine initState = initState by exact h2 lines h
  intro ls
  induction ls with
  | nil => intro _; rfl
  | cons a as ih =>
    intro hall
    have ha : enterCond a = false := hall a (List.mem_cons_self a as)
    have hstep : processLine initState a = initState := by
      simp [processLine, ha, initState]
    rw [List.foldl_cons, hstep]
    exact ih (fun l hl => hall l (List.mem_cons_of_mem a hl))

/-- Claim C6: the extractor is total by construction, and on any text none
of whose lines is a heading-style line mentioning "recommendation" it
returns the empty list. -/
theorem parse_recommendations_no_heading_empty (text : String)
    (h : ∀ line ∈ splitLines text.data, enterCond line = false) :
    parse_recommendations text = [] := by
  unfold parse_recommendations parseRecLines
  rw [foldl_processLine_no_enter (splitLines text.data) h]
  rfl

/-- Witness for claim C6 at a concrete two-line plain text. -/
theorem parse_recommendations_no_heading_empty_witness :
    parse_recommendations "hello\nworld" = [] :=
  parse_recommendations_no_heading_empty "hello\nworld" (by decide)

/-- The text of the counterexample to claim C1: the third line contains
"working well" but is also a heading-style line containing
"recommendation". -/
def exitClashText : String :=
  "## Recommendations\n1. Consider adding X\n**Recommendations: working well**\n- Evidence: 5 sessions"

/-- The clashing third line of exitClashText. -/
def exitClashLine : List Char := lit "**Recommendations: working well**"

/-- The loop state after the first two lines of exitClashText. -/
def exitClashState : ParseState :=
  ((splitLines exitClashText.data).take 2).foldl processLine initState

/-- Counterexample to claim C1: while the state is in_recommendations with
an active record, processing a line that contains "working well" but also
contains "recommendation" and starts with an emphasis marker does not
finalize the record and does not leave the section, because the
section-start branch of the source is checked first and is not conditioned
on the section state; the later evidence line still enriches the record. -/
theorem parse_recommendations_exit_shadowed_counterexample :
    exitClashState.inRecs = true ∧
    exitClashState.current ≠ none ∧
    exitCond exitClashLine = true ∧
    (processLine exitClashState exitClashLine).inRecs = true ∧
    (processLine exitClashState exitClashLine).recs = exitClashState.recs ∧
    (processLine exitClashState exitClashLine).current = exitClashState.current ∧
    (parse_recommendations exitClashText).map Recommendation.evidence =
      [lit "Evidence: 5 sessions"] := by
  decide

/-- Claim C1 as amended: while the state is in_recommendations, a line
whose lowercased form contains "working well" finalizes the active record
(appending it whenever present) and moves the state outside, provided the
line is not itself a section-start line, that is not a line containing
"recommendation" and starting with a heading or emphasis marker. -/
theorem parse_recommendations_exit_rule (st : ParseState) (line : List Char)
    (hin : st.inRecs = true) (hww : exitCond line = true)
    (hne : enterCond line = false) :
    processLine st line =
      { recs := st.recs ++ st.current.toList, current := none, inRecs := false } := by
  simp [processLine, hin, hww, hne]

/-- Every character of a matched pattern occurs in the scanned list. -/
lemma mem_of_isPrefixOfB (p l : List Char) (h : isPrefixOfB p l = true) :
    ∀ x ∈ p, x ∈ l := by
  induction p generalizing l with
  | nil => intro x hx; cases hx
  | cons a as ih =>
    intro x hx
    cases l with
    | nil => simp [isPrefixOfB] at h
    | cons b bs =>
      simp only [isPrefixOfB, Bool.and_eq_true, decide_eq_true_eq] at h
      obtain ⟨hab, hrest⟩ := h
      rcases List.mem_cons.mp hx with hxa | hxas
      · subst hxa; subst hab; exact List.mem_cons_self x bs
      · exact List.mem_cons_of_mem b (ih bs hrest x hxas)

/-- Every character of a substring occurrence occurs in the scanned list. -/
lemma mem_of_isInfixOfB (l p : List Char) (h : isInfixOfB p l = true) :
    ∀ x ∈ p, x ∈ l := by
  induction l with
  | nil =>
    intro x hx
    simp only [isInfixOfB, List.isEmpty_iff] at h
    subst h; cases hx
  | cons b bs ih =>
    intro x hx
    simp only [isInfixOfB, Bool.or_eq_true] at h
    rcases h with h | h
    · exact mem_of_isPrefixOfB p (b :: bs) h x hx
    · exact List.mem_cons_of_mem b (ih h x hx)

/-- Characters stripped by lstrip("0123456789.") never lowercase to the
letter d. -/
lemma isDigitDotChar_lower_ne_d (c : Char) (h : isDigitDotChar c = true) :
    pyLowerChar c ≠ 'd' := by
  simp only [isDigitDotChar, Bool.or_eq_true, decide_eq_true_eq] at h
  repeat' rcases h with h | h
  all_goals decide

/-- The asterisk never lowercases to the letter d. -/
lemma isStarChar_lower_ne_d (c : Char) (h : isStarChar c = true) :
    pyLowerChar c ≠ 'd' := by
  simp only [isStarChar, decide_eq_true_eq] at h
  subst h; decide

/-- Whitespace never lowercases to the letter d. -/
lemma pyIsSpace_lower_ne_d (c : Char) (h : pyIsSpace c = true) :
    pyLowerChar c ≠ 'd' := by
  simp only [pyIsSpace, Bool.or_eq_true, decide_eq_true_eq] at h
  repeat' rcases h with h | h
  all_goals decide

/-- dropWhile over a class that cannot lowercase to d keeps a witness of
the letter d. -/
lemma exists_d_dropWhile (p : Char → Bool) (hp : ∀ c, p c = true → pyLowerChar c ≠ 'd')
    (l : List Char) (h : ∃ c ∈ l, pyLowerChar c = 'd') :
    ∃ c ∈ l.dropWhile p, pyLowerChar c = 'd' := by
  induction l with
  | nil => obtain ⟨c, hc, _⟩ := h; cases hc
  | cons a as ih =>
    by_cases hpa : p a = true
    · rw [List.dropWhile_cons_of_pos hpa]
      obtain ⟨c, hc, hcd⟩ := h
      rcases List.mem_cons.mp hc with rfl | hcas
      · exact absurd hcd (hp c hpa)
      · exact ih ⟨c, hcas, hcd⟩
    · rw [List.dropWhile_cons_of_neg hpa]
      exact h

/-- Reversal keeps a witness of the letter d. -/
lemma exists_d_reverse (l : List Char) (h : ∃ c ∈ l, pyLowerChar c = 'd') :
    ∃ c ∈ l.reverse, pyLowerChar c = 'd' := by
  obtain ⟨c, hc, hcd⟩ := h
  exact ⟨c, List.mem_reverse.mpr hc, hcd⟩

/-- Right stripping over a d-free class keeps a witness of the letter d. -/
lemma exists_d_dropWhileRight (p : Char → Bool)
    (hp : ∀ c, p c = true → pyLowerChar c ≠ 'd')
    (l : List Char) (h : ∃ c ∈ l, pyLowerChar c = 'd') :
    ∃ c ∈ dropWhileRight p l, pyLowerChar c = 'd' := by
  unfold dropWhileRight
  exact exists_d_reverse _ (exists_d_dropWhile p hp _ (exists_d_reverse _ h))

/-- Stripping both ends over a d-free class keeps a witness of the
letter d. -/
lemma exists_d_stripChars (p : Char → Bool)
    (hp : ∀ c, p c = true → pyLowerChar c ≠ 'd')
    (l : List Char) (h : ∃ c ∈ l, pyLowerChar c = 'd') :
    ∃ c ∈ stripChars p l, pyLowerChar c = 'd' := by
  unfold stripChars
  exact exists_d_dropWhileRight p hp _ (exists_d_dropWhile p hp _ h)

/-- str.strip() keeps a witness of the letter d. -/
lemma exists_d_pyStrip (l : List Char) (h : ∃ c ∈ l, pyLowerChar c = 'd') :
    ∃ c ∈ pyStrip l, pyLowerChar c = 'd' :=
  exists_d_stripChars pyIsSpace pyIsSpace_lower_ne_d l h

/-- A line accepted by the new-recommendation branch contains a character
lowering to d, since each of the keywords consider, add and update
contains the letter d. -/
lemma exists_d_of_startCond (line : List Char) (h : startCond line = true) :
    ∃ c ∈ line, pyLowerChar c = 'd' := by
  have hd : 'd' ∈ lowerL line := by
    simp only [startCond, Bool.and_eq_true, Bool.or_eq_true] at h
    have h2 := h.2
    repeat' rcases h2 with h2 | h2
    all_goals exact mem_of_isInfixOfB _ _ h2 'd' (by decide)
  obtain ⟨c, hc, hcd⟩ := List.mem_map.mp hd
  exact ⟨c, hc, hcd⟩

/-- The title computed for a line accepted by the new-recommendation
branch is never empty. -/
lemma titleOf_ne_nil (line : List Char) (h : startCond line = true) :
    titleOf line ≠ [] := by
  have hd : ∃ c ∈ titleOf line, pyLowerChar c = 'd' := by
    unfold titleOf
    exact exists_d_pyStrip _ (exists_d_stripChars isStarChar isStarChar_lower_ne_d _
      (exists_d_pyStrip _ (exists_d_dropWhile isDigitDotChar isDigitDotChar_lower_ne_d _
        (exists_d_pyStrip _ (exists_d_of_startCond line h)))))
  obtain ⟨c, hc, _⟩ := hd
  intro heq
  rw [heq] at hc
  cases hc

/-- The record invariant maintained by the extractor loop: a non-empty
title and an untouched impact field. -/
def GoodRec (r : Recommendation) : Prop := r.title ≠ [] ∧ r.impact = []

/-- The loop-state invariant: all emitted records and any record under
construction satisfy the record invariant. -/
def StInv (st : ParseState) : Prop :=
  (∀ r ∈ st.recs, GoodRec r) ∧ ∀ r, st.current = some r → GoodRec r

/-- The attribute-parsing branch never changes the title. -/
lemma enrich_title (r : Recommendation) (line : List Char) :
    (enrich r line).title = r.title := by
  simp only [enrich]
  split_ifs <;> rfl

/-- The attribute-parsing branch never changes the impact field. -/
lemma enrich_impact (r : Recommendation) (line : List Char) :
    (enrich r line).impact = r.impact := by
  simp only [enrich]
  split_ifs <;> rfl

/-- Enrichment preserves the record invariant. -/
lemma enrich_good (r : Recommendation) (line : List Char) (h : GoodRec r) :
    GoodRec (enrich r line) := by
  constructor
  · rw [enrich_title]; exact h.1
  · rw [enrich_impact]; exact h.2

/-- Finalization preserves the record invariant of the output list. -/
lemma finalizeIfTitled_good (recs : List Recommendation) (cur : Option Recommendation)
    (h1 : ∀ r ∈ recs, GoodRec r) (h2 : ∀ r, cur = some r → GoodRec r) :
    ∀ r ∈ finalizeIfTitled recs cur, GoodRec r := by
  cases cur with
  | none => exact h1
  | some c =>
    simp only [finalizeIfTitled]
    split_ifs with hc
    · exact h1
    · intro r hr
      rcases List.mem_append.mp hr with hr | hr
      · exact h1 r hr
      · rw [List.mem_singleton.mp hr]
        exact h2 c rfl

/-- One loop iteration preserves the state invariant. -/
lemma processLine_inv (st : ParseState) (line : List Char) (h : StInv st) :
    StInv (processLine st line) := by
  unfold processLine
  by_cases h1 : enterCond line = true
  · rw [if_pos h1]
    exact ⟨h.1, h.2⟩
  · rw [if_neg h1]
    by_cases h2 : (st.inRecs && exitCond line) = true
    · rw [if_pos h2]
      refine ⟨?_, ?_⟩
      · intro r hr
        rcases List.mem_append.mp hr with hr | hr
        · exact h.1 r hr
        · cases hcur : st.current with
          | none => rw [hcur] at hr; cases hr
          | some c =>
            rw [hcur] at hr
            simp only [Option.toList_some, List.mem_singleton] at hr
            rw [hr]
            exact h.2 c hcur
      · intro r hr; cases hr
    · rw [if_neg h2]
      by_cases h3 : (!st.inRecs) = true
      · rw [if_pos h3]
        exact h
      · rw [if_neg h3]
        by_cases h4 : startCond line = true
        · rw [if_pos h4]
          refine ⟨finalizeIfTitled_good st.recs st.current h.1 h.2, ?_⟩
          intro r hr
          simp only [Option.some_inj] at hr
          rw [← hr]
          exact ⟨titleOf_ne_nil line h4, rfl⟩
        · rw [if_neg h4]
          cases hcur : st.current with
          | none => exact h
          | some c =>
            refine ⟨h.1, ?_⟩
            intro r hr
            simp only [Option.some_inj] at hr
            rw [← hr]
            exact enrich_good c line (h.2 c hcur)

/-- The whole line loop preserves the state invariant. -/
lemma foldl_processLine_inv (lines : List (List Char)) (st : ParseState) (h : StInv st) :
    StInv (lines.foldl processLine st) := by
  induction lines generalizing st with
  | nil => exact h
  | cons a as ih =>
    rw [List.foldl_cons]
    exact ih (processLine st a) (processLine_inv st a h)

/-- Every record emitted by the extractor satisfies the record
invariant. -/
lemma parse_recommendations_good (text : String) (r : Recommendation)
    (h : r ∈ parse_recommendations text) : GoodRec r := by
  unfold parse_recommendations parseRecLines finalizeEnd at h
  have hinv : StInv ((splitLines text.data).foldl processLine initState) := by
    refine foldl_processLine_inv _ _ ⟨?_, ?_⟩
    · intro r hr; cases hr
    · intro r hr; cases hr
  exact finalizeIfTitled_good _ _ hinv.1 hinv.2 r h

/-- Claim C7: for every input text, every recommendation in the output has
a non-empty title; empty-titled records are never appended. -/
theorem parse_recommendations_title_nonempty (text : String) (r : Recommendation)
    (h : r ∈ parse_recommendations text) : r.title ≠ [] :=
  (parse_recommendations_good text r h).1

/-- The record produced by the clean synthetic input. -/
def cleanRec : Recommendation :=
  { title := lit "Consider adding a test checklist", priority := lit "medium",
    evidence := lit "Evidence: 3 sessions", suggested_change := [], impact := [],
    reversibility := lit "high" }

/-- Witness for claim C7 at the clean synthetic input. -/
theorem parse_recommendations_title_nonempty_witness : cleanRec.title ≠ [] :=
  parse_recommendations_title_nonempty cleanInputText cleanRec (by decide)

/-- Claim C10: the impact field of every extracted recommendation is the
empty string; no branch of the extractor ever assigns to it. -/
theorem parse_recommendations_impact_empty (text : String) (r : Recommendation)
    (h : r ∈ parse_recommendations text) : r.impact = [] :=
  (parse_recommendations_good text r h).2

/-- The record produced by a minimal update-style input. -/
def updateRec : Recommendation :=
  { title := lit "Update the doc", priority := lit "medium", evidence := [],
    suggested_change := [], impact := [], reversibility := lit "high" }

/-- Witness for claim C10 at a minimal two-line input. -/
theorem parse_recommendations_impact_empty_witness : updateRec.impact = [] :=
  parse_recommendations_impact_empty "## Recommendations\n2. Update the doc" updateRec
    (by decide)

/-- Witness for the amended claim C1 at a concrete state and line. -/
theorem parse_recommendations_exit_rule_witness :
    processLine
        { recs := [], current := some (newRecommendation (lit "1. Consider adding X")),
          inRecs := true }
        (lit "## Working Well") =
      { recs := [newRecommendation (lit "1. Consider adding X")], current := none,
        inRecs := false } :=
  parse_recommendations_exit_rule
    { recs := [], current := some (newRecommendation (lit "1. Consider adding X")),
      inRecs := true }
    (lit "## Working Well") (by decide) (by decide) (by decide)

/-- calculate_percentage_change of insights_parser.py, with the float
arithmetic modelled by exact rationals. -/
def calculate_percentage_change (current previous : ℤ) : ℚ :=
  if previous = 0 then (if 0 < current then 100 else 0)
  else ((current : ℚ) - (previous : ℚ)) / (previous : ℚ) * 100

/-- Claim C2: the zero-previous policy and the percentage formula of
calculate_percentage_change, with the three concrete values of the spec. -/
theorem calculate_percentage_change_spec (current previous : ℕ) :
    (previous = 0 → current = 0 → calculate_percentage_change current previous = 0) ∧
    (previous = 0 → 0 < current → calculate_percentage_change current previous = 100) ∧
    (previous ≠ 0 →
      calculate_percentage_change current previous =
        ((current : ℚ) - (previous : ℚ)) / (previous : ℚ) * 100) ∧
    calculate_percentage_change 100 100 = 0 ∧
    calculate_percentage_change 80 100 = -20 ∧
    calculate_percentage_change 120 100 = 20 := by
  refine ⟨?_, ?_, ?_, by norm_num [calculate_percentage_change],
    by norm_num [calculate_percentage_change], by norm_num [calculate_percentage_change]⟩
  · intro hp hc
    subst hp; subst hc
    norm_num [calculate_percentage_change]
  · intro hp hc
    subst hp
    have : (0:ℤ) < (current : ℤ) := by exact_mod_cast hc
    simp [calculate_percentage_change, this]
  · intro hp
    have : ((previous : ℤ)) ≠ 0 := by exact_mod_cast hp
    simp only [calculate_percentage_change, this, if_false]
    norm_num

/-- Witness for claim C2 at previous zero with current zero and seven. -/
theorem calculate_percentage_change_spec_witness :
    calculate_percentage_change ((0:ℕ):ℤ) ((0:ℕ):ℤ) = 0 ∧
      calculate_percentage_change ((7:ℕ):ℤ) ((0:ℕ):ℤ) = 100 :=
  ⟨(calculate_percentage_change_spec 0 0).1 rfl rfl,
   (calculate_percentage_change_spec 7 0).2.1 rfl (by norm_num)⟩

/-- The weights dictionary lookup of calculate_satisfaction_trend, with
default zero. -/
def satWeight (k : String) : ℤ :=
  if k = "likely_satisfied" then 1
  else if k = "neutral" then 0
  else if k = "likely_unsatisfied" then -1
  else 0

/-- Total count of a satisfaction distribution. -/
def distTotal (d : List (String × ℕ)) : ℕ := (d.map Prod.snd).sum

/-- Weighted count sum of a satisfaction distribution. -/
def distWeighted (d : List (String × ℕ)) : ℤ :=
  (d.map (fun kv => satWeight kv.1 * (kv.2 : ℤ))).sum

/-- weighted_score of calculate_satisfaction_trend, over exact
rationals, zero on an empty total. -/
def weighted_score (d : List (String × ℕ)) : ℚ :=
  if distTotal d = 0 then 0 else (distWeighted d : ℚ) / (distTotal d : ℚ)

/-- calculate_satisfaction_trend of insights_parser.py; a Counter is
modelled by its item list. -/
def calculate_satisfaction_trend (current : List (String × ℕ))
    (previous : Option (List (String × ℕ))) : String :=
  match previous with
  | none => "baseline"
  | some prev =>
    if weighted_score current - weighted_score prev > 1/10 then "improving"
    else if weighted_score current - weighted_score prev < -(1/10) then "declining"
    else "stable"

/-- Evaluation of the trajectory when a previous distribution is
present. -/
lemma calculate_satisfaction_trend_eval (current prev : List (String × ℕ)) :
    calculate_satisfaction_trend current (some prev) =
      if weighted_score current - weighted_score prev > 1/10 then "improving"
      else if weighted_score current - weighted_score prev < -(1/10) then "declining"
      else "stable" := rfl

/-- Claim C3: the weight assignment, the normalized score, and the strict
0.1 noise band of the satisfaction trajectory; a difference of exactly one
tenth is stable. -/
theorem calculate_satisfaction_trend_spec (current prev : List (String × ℕ)) :
    (satWeight "likely_satisfied" = 1 ∧ satWeight "neutral" = 0 ∧
      satWeight "likely_unsatisfied" = -1 ∧ satWeight "confused" = 0) ∧
    (∀ d, weighted_score d =
      if distTotal d = 0 then 0 else (distWeighted d : ℚ) / (distTotal d : ℚ)) ∧
    (calculate_satisfaction_trend current (some prev) = "improving" ↔
      weighted_score current - weighted_score prev > 1/10) ∧
    (calculate_satisfaction_trend current (some prev) = "declining" ↔
      weighted_score current - weighted_score prev < -(1/10)) ∧
    (calculate_satisfaction_trend current (some prev) = "stable" ↔
      (¬weighted_score current - weighted_score prev > 1/10 ∧
        ¬weighted_score current - weighted_score prev < -(1/10))) ∧
    calculate_satisfaction_trend [("likely_satisfied", 1), ("neutral", 9)]
      (some []) = "stable" := by
  refine ⟨⟨rfl, rfl, rfl, rfl⟩, fun d => rfl, ?_, ?_, ?_, ?_⟩
  · rw [calculate_satisfaction_trend_eval]
    split_ifs with h1 h2
    · exact iff_of_true rfl h1
    · exact iff_of_false (by decide) h1
    · exact iff_of_false (by decide) h1
  · rw [calculate_satisfaction_trend_eval]
    split_ifs with h1 h2
    · exact iff_of_false (by decide) (fun hc => absurd h1 (not_lt.mpr (by linarith)))
    · exact iff_of_true rfl h2
    · exact iff_of_false (by decide) h2
  · rw [calculate_satisfaction_trend_eval]
    split_ifs with h1 h2
    · exact iff_of_false (by decide) (fun hc => hc.1 h1)
    · exact iff_of_false (by decide) (fun hc => hc.2 h2)
    · exact iff_of_true rfl ⟨h1, h2⟩
  · rw [calculate_satisfaction_trend_eval]
    have hc : weighted_score [("likely_satisfied", 1), ("neutral", 9)] = 1/10 := by
      simp +decide [weighted_score, distTotal, distWeighted, satWeight]
    have hp : weighted_score ([] : List (String × ℕ)) = 0 := by
      simp [weighted_score, distTotal]
    rw [hc, hp]
    norm_num

/-- Witness for claim C3: a score difference of one unit is improving. -/
theorem calculate_satisfaction_trend_spec_witness :
    calculate_satisfaction_trend [("likely_satisfied", 3)] (some []) = "improving" :=
  (calculate_satisfaction_trend_spec [("likely_satisfied", 3)] []).2.2.1.mpr (by
    simp +decide [weighted_score, distTotal, distWeighted, satWeight]
    norm_num)

/-- SessionInsight of insights_parser.py; dict fields become item lists. -/
structure SessionInsight where
  session_id : String
  underlying_goal : String
  goal_categories : List (String × ℕ)
  outcome : String
  user_satisfaction_counts : List (String × ℕ)
  claude_helpfulness : String
  session_type : String
  friction_counts : List (String × ℕ)
  friction_detail : String
  primary_success : String
  brief_summary : String
deriving DecidableEq, Repr

/-- WeeklyMetrics of insights_parser.py; each Counter becomes its count
function, timestamps become integers. -/
structure WeeklyMetrics where
  period_start : ℤ
  period_end : ℤ
  total_sessions : ℕ
  outcomes : String → ℕ
  satisfaction : String → ℕ
  helpfulness : String → ℕ
  session_types : String → ℕ
  goal_categories : String → ℕ
  friction_counts : String → ℕ
  friction_details : List String
  primary_successes : String → ℕ
  sessions : List SessionInsight

/-- Counter increment by n at key k. -/
def bump (f : String → ℕ) (k : String) (n : ℕ) : String → ℕ :=
  fun x => if x = k then f x + n else f x

/-- Additive merge of a dict items iteration into a Counter. -/
def addPairs (f : String → ℕ) : List (String × ℕ) → String → ℕ
  | [] => f
  | kv :: rest => addPairs (bump f kv.1 kv.2) rest

/-- The body of the per-session loop of aggregate_weekly_metrics; string
fields contribute only when non-empty, dict fields merge additively. -/
def aggStep (m : WeeklyMetrics) (s : SessionInsight) : WeeklyMetrics :=
  { m with
    outcomes := if s.outcome = "" then m.outcomes else bump m.outcomes s.outcome 1,
    satisfaction := addPairs m.satisfaction s.user_satisfaction_counts,
    helpfulness :=
      if s.claude_helpfulness = "" then m.helpfulness
      else bump m.helpfulness s.claude_helpfulness 1,
    session_types :=
      if s.session_type = "" then m.session_types
      else bump m.session_types s.session_type 1,
    goal_categories := addPairs m.goal_categories s.goal_categories,
    friction_counts := addPairs m.friction_counts s.friction_counts,
    friction_details :=
      if s.friction_detail = "" then m.friction_details
      else m.friction_details ++ [s.friction_detail],
    primary_successes :=
      if s.primary_success = "" then m.primary_successes
      else bump m.primary_successes s.primary_success 1 }

/-- aggregate_weekly_metrics of insights_parser.py: length and sessions
are set up front, then the loop folds over the sessions. -/
def aggregate_weekly_metrics (sessions : List SessionInsight)
    (period_start period_end : ℤ) : WeeklyMetrics :=
  sessions.foldl aggStep
    { period_start := period_start, period_end := period_end,
      total_sessions := sessions.length, outcomes := fun _ => 0,
      satisfaction := fun _ => 0, helpfulness := fun _ => 0,
      session_types := fun _ => 0, goal_categories := fun _ => 0,
      friction_counts := fun _ => 0, friction_details := [],
      primary_successes := fun _ => 0, sessions := sessions }

/-- The amount a dict items list adds to a Counter at key k. -/
def pairContrib (k : String) : List (String × ℕ) → ℕ
  | [] => 0
  | kv :: rest => (if k = kv.1 then kv.2 else 0) + pairContrib k rest

/-- The amount a guarded single-key increment adds at key k. -/
def keyContrib (k field : String) : ℕ :=
  if field = "" then 0 else if k = field then 1 else 0

/-- Pointwise reading of bump at a key. -/
lemma bump_apply_key (f : String → ℕ) (k : String) (n : ℕ) (x : String) :
    bump f k n x = f x + (if x = k then n else 0) := by
  unfold bump
  split_ifs <;> omega

/-- Pointwise reading of the additive dict merge. -/
lemma addPairs_apply (ps : List (String × ℕ)) (f : String → ℕ) (k : String) :
    addPairs f ps k = f k + pairContrib k ps := by
  induction ps generalizing f with
  | nil => simp [addPairs, pairContrib]
  | cons kv rest ih =>
    rw [addPairs, ih, bump_apply_key, pairContrib]
    omega

/-- Pointwise reading of a guarded single-key increment. -/
lemma condBump_apply (f : String → ℕ) (field k : String) :
    (if field = "" then f else bump f field 1) k = f k + keyContrib k field := by
  unfold keyContrib
  by_cases h : field = ""
  · simp [h]
  · simp [h, bump_apply_key]

/-- The fold never changes the up-front session count. -/
lemma foldl_aggStep_total (l : List SessionInsight) (m : WeeklyMetrics) :
    (l.foldl aggStep m).total_sessions = m.total_sessions := by
  induction l generalizing m with
  | nil => rfl
  | cons s rest ih => rw [List.foldl_cons, ih]; rfl

/-- Pointwise value of the outcome distribution after the fold. -/
lemma foldl_aggStep_outcomes (l : List SessionInsight) (m : WeeklyMetrics) (k : String) :
    (l.foldl aggStep m).outcomes k =
      m.outcomes k + (l.map (fun s => keyContrib k s.outcome)).sum := by
  induction l generalizing m with
  | nil => simp
  | cons s rest ih =>
    rw [List.foldl_cons, ih]
    have hstep : (aggStep m s).outcomes k = m.outcomes k + keyContrib k s.outcome :=
      condBump_apply m.outcomes s.outcome k
    rw [hstep, List.map_cons, List.sum_cons]
    omega

/-- Pointwise value of the satisfaction distribution after the fold. -/
lemma foldl_aggStep_satisfaction (l : List SessionInsight) (m : WeeklyMetrics) (k : String) :
    (l.foldl aggStep m).satisfaction k =
      m.satisfaction k + (l.map (fun s => pairContrib k s.user_satisfaction_counts)).sum := by
  induction l generalizing m with
  | nil => simp
  | cons s rest ih =>
    rw [List.foldl_cons, ih]
    have hstep : (aggStep m s).satisfaction k =
        m.satisfaction k + pairContrib k s.user_satisfaction_counts :=
      addPairs_apply s.user_satisfaction_counts m.satisfaction k
    rw [hstep, List.map_cons, List.sum_cons]
    omega

/-- Pointwise value of the helpfulness distribution after the fold. -/
lemma foldl_aggStep_helpfulness (l : List SessionInsight) (m : WeeklyMetrics) (k : String) :
    (l.foldl aggStep m).helpfulness k =
      m.helpfulness k + (l.map (fun s => keyContrib k s.claude_helpfulness)).sum := by
  induction l generalizing m with
  | nil => simp
  | cons s rest ih =>
    rw [List.foldl_cons, ih]
    have hstep : (aggStep m s).helpfulness k =
        m.helpfulness k + keyContrib k s.claude_helpfulness :=
      condBump_apply m.helpfulness s.claude_helpfulness k
    rw [hstep, List.map_cons, List.sum_cons]
    omega

/-- Pointwise value of the session-type distribution after the fold. -/
lemma foldl_aggStep_session_types (l : List SessionInsight) (m : WeeklyMetrics) (k : String) :
    (l.foldl aggStep m).session_types k =
      m.session_types k + (l.map (fun s => keyContrib k s.session_type)).sum := by
  induction l generalizing m with
  | nil => simp
  | cons s rest ih =>
    rw [List.foldl_cons, ih]
    have hstep : (aggStep m s).session_types k =
        m.session_types k + keyContrib k s.session_type :=
      condBump_apply m.session_types s.session_type k
    rw [hstep, List.map_cons, List.sum_cons]
    omega

/-- Pointwise value of the goal-category distribution after the fold. -/
lemma foldl_aggStep_goal_categories (l : List SessionInsight) (m : WeeklyMetrics) (k : String) :
    (l.foldl aggStep m).goal_categories k =
      m.goal_categories k + (l.map (fun s => pairContrib k s.goal_categories)).sum := by
  induction l generalizing m with
  | nil => simp
  | cons s rest ih =>
    rw [List.foldl_cons, ih]
    have hstep : (aggStep m s).goal_categories k =
        m.goal_categories k + pairContrib k s.goal_categories :=
      addPairs_apply s.goal_categories m.goal_categories k
    rw [hstep, List.map_cons, List.sum_cons]
    omega

/-- Pointwise value of the friction distribution after the fold. -/
lemma foldl_aggStep_friction_counts (l : List SessionInsight) (m : WeeklyMetrics) (k : String) :
    (l.foldl aggStep m).friction_counts k =
      m.friction_counts k + (l.map (fun s => pairContrib k s.friction_counts)).sum := by
  induction l generalizing m with
  | nil => simp
  | cons s rest ih =>
    rw [List.foldl_cons, ih]
    have hstep : (aggStep m s).friction_counts k =
        m.friction_counts k + pairContrib k s.friction_counts :=
      addPairs_apply s.friction_counts m.friction_counts k
    rw [hstep, List.map_cons, List.sum_cons]
    omega

/-- Pointwise value of the primary-success distribution after the fold. -/
lemma foldl_aggStep_primary_successes (l : List SessionInsight) (m : WeeklyMetrics) (k : String) :
    (l.foldl aggStep m).primary_successes k =
      m.primary_successes k + (l.map (fun s => keyContrib k s.primary_success)).sum := by
  induction l generalizing m with
  | nil => simp
  | cons s rest ih =>
    rw [List.foldl_cons, ih]
    have hstep : (aggStep m s).primary_successes k =
        m.primary_successes k + keyContrib k s.primary_success :=
      condBump_apply m.primary_successes s.primary_success k
    rw [hstep, List.map_cons, List.sum_cons]
    omega

/-- The friction-detail list after the fold: the previous list followed by
the non-empty detail strings in input order. -/
lemma foldl_aggStep_details (l : List SessionInsight) (m : WeeklyMetrics) :
    (l.foldl aggStep m).friction_details =
      m.friction_details ++
        (l.map (fun s => s.friction_detail)).filter (fun d => decide (d ≠ "")) := by
  induction l generalizing m with
  | nil => simp
  | cons s rest ih =>
    rw [List.foldl_cons, ih]
    by_cases h : s.friction_detail = ""
    · have hstep : (aggStep m s).friction_details = m.friction_details := by
        show (if s.friction_detail = "" then m.friction_details
          else m.friction_details ++ [s.friction_detail]) = m.friction_details
        rw [if_pos h]
      rw [hstep, List.map_cons, List.filter_cons]
      simp [h]
    · have hstep : (aggStep m s).friction_details =
          m.friction_details ++ [s.friction_detail] := by
        show (if s.friction_detail = "" then m.friction_details
          else m.friction_details ++ [s.friction_detail]) = _
        rw [if_neg h]
      rw [hstep, List.map_cons, List.filter_cons]
      simp [h, List.append_assoc]

/-- Claim C8: the aggregated friction-detail list is exactly the non-empty
friction_detail strings of the input records, in encounter order. -/
theorem aggregate_friction_details_ordered (sessions : List SessionInsight)
    (period_start period_end : ℤ) :
    (aggregate_weekly_metrics sessions period_start period_end).friction_details =
      (sessions.map (fun s => s.friction_detail)).filter (fun d => decide (d ≠ "")) := by
  unfold aggregate_weekly_metrics
  rw [foldl_aggStep_details]
  rfl

/-- Claim C4: aggregation is additive: over any two-sublist partition of a
session list, summing the two aggregates entrywise over each distribution
and over the session counts reproduces the aggregate of the full list. -/
theorem aggregate_weekly_metrics_additive (l₁ l₂ l : List SessionInsight)
    (hperm : (l₁ ++ l₂).Perm l) (ps pe : ℤ) (k : String) :
    (aggregate_weekly_metrics l₁ ps pe).total_sessions +
        (aggregate_weekly_metrics l₂ ps pe).total_sessions =
      (aggregate_weekly_metrics l ps pe).total_sessions ∧
    (aggregate_weekly_metrics l₁ ps pe).outcomes k +
        (aggregate_weekly_metrics l₂ ps pe).outcomes k =
      (aggregate_weekly_metrics l ps pe).outcomes k ∧
    (aggregate_weekly_metrics l₁ ps pe).satisfaction k +
        (aggregate_weekly_metrics l₂ ps pe).satisfaction k =
      (aggregate_weekly_metrics l ps pe).satisfaction k ∧
    (aggregate_weekly_metrics l₁ ps pe).helpfulness k +
        (aggregate_weekly_metrics l₂ ps pe).helpfulness k =
      (aggregate_weekly_metrics l ps pe).helpfulness k ∧
    (aggregate_weekly_metrics l₁ ps pe).session_types k +
        (aggregate_weekly_metrics l₂ ps pe).session_types k =
      (aggregate_weekly_metrics l ps pe).session_types k ∧
    (aggregate_weekly_metrics l₁ ps pe).goal_categories k +
        (aggregate_weekly_metrics l₂ ps pe).goal_categories k =
      (aggregate_weekly_metrics l ps pe).goal_categories k ∧
    (aggregate_weekly_metrics l₁ ps pe).friction_counts k +
        (aggregate_weekly_metrics l₂ ps pe).friction_counts k =
      (aggregate_weekly_metrics l ps pe).friction_counts k ∧
    (aggregate_weekly_metrics l₁ ps pe).primary_successes k +
        (aggregate_weekly_metrics l₂ ps pe).primary_successes k =
      (aggregate_weekly_metrics l ps pe).primary_successes k := by
  have hsum : ∀ (g : SessionInsight → ℕ),
      (l₁.map g).sum + (l₂.map g).sum = (l.map g).sum := by
    intro g
    rw [← List.sum_append, ← List.map_append]
    exact (hperm.map g).sum_eq
  refine ⟨?_, ?_, ?_, ?_, ?_, ?_, ?_, ?_⟩
  · have htot : ∀ (ll : List SessionInsight),
        (aggregate_weekly_metrics ll ps pe).total_sessions = ll.length := by
      intro ll
      unfold aggregate_weekly_metrics
      rw [foldl_aggStep_total]
    rw [htot, htot, htot, ← List.length_append]
    exact hperm.length_eq
  · have hf : ∀ (ll : List SessionInsight),
        (aggregate_weekly_metrics ll ps pe).outcomes k =
          (ll.map (fun s => keyContrib k s.outcome)).sum := by
      intro ll
      unfold aggregate_weekly_metrics
      rw [foldl_aggStep_outcomes]
      simp
    rw [hf, hf, hf]
    exact hsum _
  · have hf : ∀ (ll : List SessionInsight),
        (aggregate_weekly_metrics ll ps pe).satisfaction k =
          (ll.map (fun s => pairContrib k s.user_satisfaction_counts)).sum := by
      intro ll
      unfold aggregate_weekly_metrics
      rw [foldl_aggStep_satisfaction]
      simp
    rw [hf, hf, hf]
    exact hsum _
  · have hf : ∀ (ll : List SessionInsight),
        (aggregate_weekly_metrics ll ps pe).helpfulness k =
          (ll.map (fun s => keyContrib k s.claude_helpfulness)).sum := by
      intro ll
      unfold aggregate_weekly_metrics
      rw [foldl_aggStep_helpfulness]
      simp
    rw [hf, hf, hf]
    exact hsum _
  · have hf : ∀ (ll : List SessionInsight),
        (aggregate_weekly_metrics ll ps pe).session_types k =
          (ll.map (fun s => keyContrib k s.session_type)).sum := by
      intro ll
      unfold aggregate_weekly_metrics
      rw [foldl_aggStep_session_types]
      simp
    rw [hf, hf, hf]
    exact hsum _
  · have hf : ∀ (ll : List SessionInsight),
        (aggregate_weekly_metrics ll ps pe).goal_categories k =
          (ll.map (fun s => pairContrib k s.goal_categories)).sum := by
      intro ll
      unfold aggregate_weekly_metrics
      rw [foldl_aggStep_goal_categories]
      simp
    rw [hf, hf, hf]
    exact hsum _
  · have hf : ∀ (ll : List SessionInsight),
        (aggregate_weekly_metrics ll ps pe).friction_counts k =
          (ll.map (fun s => pairContrib k s.friction_counts)).sum := by
      intro ll
      unfold aggregate_weekly_metrics
      rw [foldl_aggStep_friction_counts]
      simp
    rw [hf, hf, hf]
    exact hsum _
  · have hf : ∀ (ll : List SessionInsight),
        (aggregate_weekly_metrics ll ps pe).primary_successes k =
          (ll.map (fun s => keyContrib k s.primary_success)).sum := by
      intro ll
      unfold aggregate_weekly_metrics
      rw [foldl_aggStep_primary_successes]
      simp
    rw [hf, hf, hf]
    exact hsum _

/-- A sample session used by witnesses. -/
def sampleSessionA : SessionInsight :=
  { session_id := "a", underlying_goal := "feature work",
    goal_categories := [("feature_implementation", 2)], outcome := "mostly_achieved",
    user_satisfaction_counts := [("likely_satisfied", 2)],
    claude_helpfulness := "essential", session_type := "single_task",
    friction_counts := [("buggy_code", 1)], friction_detail := "tests failed",
    primary_success := "multi_file_changes", brief_summary := "ok" }

/-- A second sample session used by witnesses. -/
def sampleSessionB : SessionInsight :=
  { session_id := "b", underlying_goal := "",
    goal_categories := [("debugging", 1)], outcome := "partially_achieved",
    user_satisfaction_counts := [("neutral", 1)],
    claude_helpfulness := "helpful", session_type := "exploration",
    friction_counts := [("context_overflow", 2)], friction_detail := "",
    primary_success := "", brief_summary := "" }

/-- Witness for claim C4 on a genuine two-element permutation. -/
theorem aggregate_weekly_metrics_additive_witness :
    (aggregate_weekly_metrics [sampleSessionA] 0 7).outcomes "mostly_achieved" +
        (aggregate_weekly_metrics [sampleSessionB] 0 7).outcomes "mostly_achieved" =
      (aggregate_weekly_metrics [sampleSessionB, sampleSessionA] 0 7).outcomes
        "mostly_achieved" :=
  (aggregate_weekly_metrics_additive [sampleSessionA] [sampleSessionB]
    [sampleSessionB, sampleSessionA] (by decide) 0 7 "mostly_achieved").2.1

/-- OutcomeRecord as read by build_outcome_digest: the outcome enum value,
an optional numeric score, tech-stack tags, and an optional build-outcome
label modelled as a possibly empty string. -/
structure OutcomeRecord where
  outcome : String
  overall_score : Option ℚ
  tech_stack : List String
  build_outcome : String
deriving DecidableEq, Repr

/-- d.get(k, 0) + 1 insertion of the digest counting loop, keeping
first-insertion order as a Python dict does. -/
def dictBump (d : List (String × ℕ)) (k : String) : List (String × ℕ) :=
  if d.any (fun kv => kv.1 == k) then
    d.map (fun kv => if kv.1 == k then (kv.1, kv.2 + 1) else kv)
  else d ++ [(k, 1)]

/-- Lookup with default zero, as outcomes.get(k, 0). -/
def dictGet (d : List (String × ℕ)) (k : String) : ℕ :=
  match d.find? (fun kv => kv.1 == k) with
  | some kv => kv.2
  | none => 0

/-- The four accumulators of the record loop of build_outcome_digest. -/
structure DigestAcc where
  outcomes : List (String × ℕ)
  scores : List ℚ
  tech_stacks : List (String × ℕ)
  build_outcomes : List (String × ℕ)
deriving Repr

/-- One iteration of the record loop of build_outcome_digest. -/
def digestStep (acc : DigestAcc) (r : OutcomeRecord) : DigestAcc :=
  { outcomes := dictBump acc.outcomes r.outcome,
    scores :=
      match r.overall_score with
      | some s => acc.scores ++ [s]
      | none => acc.scores,
    tech_stacks := r.tech_stack.foldl (fun d t => dictBump d t) acc.tech_stacks,
    build_outcomes :=
      if r.build_outcome = "" then acc.build_outcomes
      else dictBump acc.build_outcomes r.build_outcome }

/-- The accumulators after the whole record loop. -/
def digestFold (records : List OutcomeRecord) : DigestAcc :=
  records.foldl digestStep ⟨[], [], [], []⟩

/-- Stable insertion into a count-descending list: an entry moves in front
of the first entry of smaller-or-equal count, so among equal counts the
earlier input entry stays first, as with the stable Python sort keyed on
the negated count. -/
def insertDesc (x : String × ℕ) : List (String × ℕ) → List (String × ℕ)
  | [] => [x]
  | y :: ys => if y.2 ≤ x.2 then x :: y :: ys else y :: insertDesc x ys

/-- sorted(items, key minus count): stable descending count order. -/
def sortDesc (l : List (String × ℕ)) : List (String × ℕ) := l.foldr insertDesc []

/-- Integer rendering of a float with format .0f; the CPython banker
rounding of binary floats is modelled by nearest-integer rounding of the
exact rational. -/
def fmtF0 (q : ℚ) : String := toString (round q)

/-- One-decimal rendering with format .1f. -/
def fmtF1 (q : ℚ) : String :=
  (if round (q * 10) < 0 then "-" else "") ++
    toString ((round (q * 10)).natAbs / 10) ++ "." ++
    toString ((round (q * 10)).natAbs % 10)

/-- count / total * 100 with the zero-total guard of the source. -/
def pctRat (count total : ℕ) : ℚ :=
  if 0 < total then (count : ℚ) / (total : ℚ) * 100 else 0

/-- One line of the outcome-distribution listing. -/
def outcomeLine (total : ℕ) (kv : String × ℕ) : String :=
  "  - " ++ kv.1 ++ ": " ++ toString kv.2 ++ " (" ++ fmtF0 (pctRat kv.2 total) ++ "%)"

/-- The rejected plus build_failed count. -/
def failuresOf (records : List OutcomeRecord) : ℕ :=
  dictGet (digestFold records).outcomes "rejected" +
    dictGet (digestFold records).outcomes "build_failed"

/-- The failure-rate line; the leading newline belongs to the line, as in
the source append. -/
def failureLine (records : List OutcomeRecord) : String :=
  "\n**Failure Rate**: " ++ fmtF0 (pctRat (failuresOf records) records.length) ++
    "% (" ++ toString (failuresOf records) ++ "/" ++ toString records.length ++ ")"

/-- The header, outcome-distribution and failure-rate lines. -/
def countSection (records : List OutcomeRecord) : List String :=
  ["**Total Ideas Completed**: " ++ toString records.length, "",
    "**Outcome Distribution**:"] ++
    (sortDesc (digestFold records).outcomes).map (outcomeLine records.length) ++
    [failureLine records]

/-- The score-distribution lines, present only when some record carried a
numeric score. -/
def scoreSection (scores : List ℚ) : List String :=
  match scores with
  | [] => []
  | s :: rest =>
    ["\n**Score Distribution**:",
      "  - Average: " ++ fmtF1 ((s :: rest).sum / ((s :: rest).length : ℚ)),
      "  - Range: " ++ fmtF0 (rest.foldl min s) ++ " - " ++ fmtF0 (rest.foldl max s)]

/-- The top-five tech-stack lines, present only when tags were seen. -/
def techSection (tech : List (String × ℕ)) : List String :=
  if tech.isEmpty then []
  else "\n**Common Tech Stacks**:" ::
    ((sortDesc tech).take 5).map (fun kv => "  - " ++ kv.1 ++ ": " ++ toString kv.2)

/-- The build-outcome lines, present only when labels were seen. -/
def buildSection (builds : List (String × ℕ)) : List String :=
  if builds.isEmpty then []
  else "\n**Build Outcomes**:" ::
    (sortDesc builds).map (fun kv => "  - " ++ kv.1 ++ ": " ++ toString kv.2)

/-- The line list joined by build_outcome_digest on non-empty input. -/
def digestLines (records : List OutcomeRecord) : List String :=
  countSection records ++ scoreSection (digestFold records).scores ++
    techSection (digestFold records).tech_stacks ++
    buildSection (digestFold records).build_outcomes

/-- build_outcome_digest of outcome_reader.py. -/
def build_outcome_digest (records : List OutcomeRecord) : String :=
  if records.isEmpty then "No outcome records available yet."
  else String.intercalate "\n" (digestLines records)

/-- Records without numeric scores leave the score accumulator
untouched. -/
lemma foldl_digestStep_scores (l : List OutcomeRecord) (acc : DigestAcc)
    (h : ∀ r ∈ l, r.overall_score = none) :
    (l.foldl digestStep acc).scores = acc.scores := by
  induction l generalizing acc with
  | nil => rfl
  | cons r rest ih =>
    rw [List.foldl_cons]
    have hr : r.overall_score = none := h r (List.mem_cons_self r rest)
    have hstep : (digestStep acc r).scores = acc.scores := by
      show (match r.overall_score with
        | some s => acc.scores ++ [s]
        | none => acc.scores) = acc.scores
      rw [hr]
    rw [ih (digestStep acc r) (fun x hx => h x (List.mem_cons_of_mem r hx)), hstep]

/-- Claim C9: the digest returns the fixed no-data sentence on the empty
list, and on a non-empty list with no numeric scores the line list omits
the score-distribution section entirely while keeping the count line, the
outcome-distribution header and the failure-rate line. -/
theorem build_outcome_digest_guards :
    build_outcome_digest [] = "No outcome records available yet." ∧
    ∀ records : List OutcomeRecord, records ≠ [] →
      (∀ r ∈ records, r.overall_score = none) →
      (digestFold records).scores = [] ∧
      digestLines records =
        countSection records ++ techSection (digestFold records).tech_stacks ++
          buildSection (digestFold records).build_outcomes ∧
      ("**Total Ideas Completed**: " ++ toString records.length) ∈ digestLines records ∧
      "**Outcome Distribution**:" ∈ digestLines records ∧
      failureLine records ∈ digestLines records ∧
      build_outcome_digest records = String.intercalate "\n" (digestLines records) := by
  refine ⟨rfl, ?_⟩
  intro records hne hnone
  have hs : (digestFold records).scores = [] :=
    foldl_digestStep_scores records _ hnone
  refine ⟨hs, ?_, ?_, ?_, ?_, ?_⟩
  · simp [digestLines, hs, scoreSection]
  · simp [digestLines, countSection]
  · simp [digestLines, countSection]
  · simp [digestLines, countSection]
  · unfold build_outcome_digest
    rw [if_neg]
    simpa [List.isEmpty_iff] using hne

/-- A sample outcome record without a numeric score. -/
def sampleOutcome : OutcomeRecord :=
  { outcome := "completed", overall_score := none, tech_stack := ["python"],
    build_outcome := "ok" }

/-- Witness for claim C9 on one score-free record. -/
theorem build_outcome_digest_guards_witness :
    "**Outcome Distribution**:" ∈ digestLines [sampleOutcome] :=
  (build_outcome_digest_guards.2 [sampleOutcome] (by decide) (by decide)).2.2.2.1
